import Mathlib

/-!
# Verification of `boost_api_examples` (`src/main.cpp`)

Shallow embedding of the behavioural content of the single source file
`src/main.cpp` (Boost API demonstration code), together with proofs about
the claims of its specification.

The file contains four independent models, matching the four independent
examples of the source:

* the singleton `TestClass2` / `GetInstance` (lines 185-211), modelled both
  sequentially (C++ function-local static initialization semantics, one
  thread) and as small-step concurrent transition systems;
* the serialization example `serialization_api_test` (lines 84-121), with the
  Boost binary archive modelled as a token-stream codec;
* the shared-pointer example `shared_pointer_test` (lines 153-171), with
  `boost::shared_ptr` modelled by explicit reference counts on a heap;
* the random-number example `rand_from_uniform_dstrb_test` (lines 36-63),
  with `boost::mt19937` implemented bit-faithfully over `Nat mod 2^32`.
-/

namespace BoostExamples

/-! ## Sequential model of `TestClass2::GetInstance` (lines 191-200)

The body of `GetInstance` is

```cpp
static boost::mutex mutex;
static boost::lock_guard<boost::mutex> guard(mutex);
static TestClass2 instance;
return instance;
```

C++ semantics of function-local statics (as compiled by every mainstream
compiler for this code: thread-safe statics, [stmt.dcl]p4): each static is
initialized exactly once, on the first control flow through its declaration;
if the initializer throws, the static is left uninitialized and the next
pass retries.  Crucially the `lock_guard` here is itself `static`: its
constructor locks `mutex` on the first call and — because a static is only
destroyed at program termination — the mutex is *never* unlocked during the
program.  Subsequent callers skip the already-initialized guard and never
touch the mutex at all.

The sequential model makes all of this explicit.  The constructor of
`TestClass2` in the source only prints; it cannot fail.  To be able to
discuss the contract "what if the constructor fails", the model takes the
outcome of a constructor attempt as a parameter `ctorOk`; the real code
corresponds to `ctorOk = true`. -/

/-- State of the three function-local statics of `GetInstance`. -/
structure SState where
  /-- has the `static lock_guard` been initialized (first call happened)? -/
  guardReady : Bool
  /-- is the `static boost::mutex mutex` currently locked? -/
  mutexLocked : Bool
  /-- has `static TestClass2 instance` been successfully constructed? -/
  instReady : Bool
  /-- generation number of the current instance (0 = none yet); a fresh
  construction would give a fresh generation, so equal generations mean
  the identical instance. -/
  instGen : Nat
  /-- how many times the `TestClass2` constructor has run -/
  ctorCount : Nat
  deriving DecidableEq, Repr

/-- The state before the first call: no static initialized. -/
def SState.start : SState :=
  { guardReady := false, mutexLocked := false, instReady := false
    instGen := 0, ctorCount := 0 }

/-- One sequential call of `TestClass2::GetInstance`, following the source
line by line.  Returns the generation of the returned reference (or the
propagated constructor exception) together with the post-call state of the
statics.  Note that on an exception the state still advances: statics keep
whatever initialization already happened. -/
def GetInstance (ctorOk : Bool) (s : SState) : Except Unit Nat × SState :=
  -- `static boost::mutex mutex;` : trivial (default) construction.
  -- `static boost::lock_guard<boost::mutex> guard(mutex);` : on the first
  -- pass this locks the mutex; being static, it is never destroyed here,
  -- so the mutex stays locked.  Later passes skip the initialization.
  let s1 := if s.guardReady then s
            else { s with guardReady := true, mutexLocked := true }
  -- `static TestClass2 instance;` : constructed on first pass; if the
  -- constructor throws, the static stays uninitialized and the exception
  -- propagates; a later pass retries.
  if s1.instReady then
    (Except.ok s1.instGen, s1)
  else if ctorOk then
    let gen := s1.ctorCount + 1
    (Except.ok gen,
      { s1 with instReady := true, instGen := gen, ctorCount := s1.ctorCount + 1 })
  else
    (Except.error (), s1)

/-- `n` successive `GetInstance` calls from one thread (the real,
non-failing constructor), collecting the returned generations. -/
def runCalls : Nat → SState → List (Except Unit Nat) × SState
  | 0, s => ([], s)
  | n + 1, s =>
      let (r, s1) := GetInstance true s
      let (rs, s2) := runCalls n s1
      (r :: rs, s2)

@[simp] theorem runCalls_zero (s : SState) : runCalls 0 s = ([], s) := rfl

@[simp] theorem runCalls_succ (n : Nat) (s : SState) :
    runCalls (n + 1) s =
      let (r, s1) := GetInstance true s
      let (rs, s2) := runCalls n s1
      (r :: rs, s2) := rfl

/-- The state after one successful first call. -/
def SState.afterFirst : SState :=
  { guardReady := true, mutexLocked := true, instReady := true
    instGen := 1, ctorCount := 1 }

theorem GetInstance_start :
    GetInstance true SState.start = (Except.ok 1, SState.afterFirst) := rfl

/-- After a successful construction, further calls are pure reads: the same
generation is returned and the state does not move. -/
theorem GetInstance_stable (s : SState) (hg : s.guardReady = true)
    (hi : s.instReady = true) (ok : Bool) :
    GetInstance ok s = (Except.ok s.instGen, s) := by
  simp [GetInstance, hg, hi]

theorem runCalls_stable (n : Nat) (s : SState) (hg : s.guardReady = true)
    (hi : s.instReady = true) :
    runCalls n s = (List.replicate n (Except.ok s.instGen), s) := by
  induction n with
  | zero => simp
  | succ n ih => simp [GetInstance_stable s hg hi, ih, List.replicate_succ]

/-! ## Concurrent model of `GetInstance` under a first-call race

`n` threads each perform one call of `TestClass2::GetInstance`
concurrently (the scenario of the exactly-once-construction contract).
The semantics of the function-local statics is the thread-safe one every
mainstream compiler gives this code ([stmt.dcl]p4): initialization of each
static happens exactly once, the thread reaching the declaration first
performs it, and any thread arriving while it is in progress blocks until
it completes.  Blocking is modelled by absence of an enabled transition:
a thread sitting at the `static TestClass2 instance;` declaration has no
step while the construction is in progress.

Instance identity: each construction consumes a fresh identity from
`nextId`, so two references denote the same instance iff they carry the
same identity. -/

/-- Lifecycle of the `static TestClass2 instance` storage. -/
inductive LifeState where
  | uninitialized
  | constructing
  | ready
  | destroyed
  deriving DecidableEq, Repr

/-- Program counter of one thread inside its single `GetInstance` call. -/
inductive TPC where
  /-- about to execute the `static mutex` / `static lock_guard` lines -/
  | entry
  /-- at the `static TestClass2 instance;` declaration -/
  | atInstance
  /-- this thread is running the `TestClass2` constructor -/
  | inCtor
  /-- the call returned a reference with the given identity -/
  | returned (res : Nat)
  deriving DecidableEq, Repr

/-- Is a thread finished with its call? -/
def TPC.isReturned : TPC → Bool
  | .returned _ => true
  | _ => false

/-- Global configuration: the statics plus every thread's position. -/
structure CConfig where
  life : LifeState
  guardReady : Bool
  mutexLocked : Bool
  ctorCount : Nat
  nextId : Nat
  instId : Nat
  tpcs : List TPC
  deriving DecidableEq, Repr

/-- Initial configuration for `n` threads: nothing initialized, every
thread about to make its first call. -/
def cinit (n : Nat) : CConfig :=
  { life := .uninitialized, guardReady := false, mutexLocked := false
    ctorCount := 0, nextId := 0, instId := 0
    tpcs := List.replicate n .entry }

/-- Scheduler choices: which thread takes which atomic step. -/
inductive CAct where
  | enter (i : Nat)
  | beginCtor (i : Nat)
  | finishCtor (i : Nat)
  | takeRef (i : Nat)
  deriving DecidableEq, Repr

/-- One atomic step of thread `i`, or `none` if that step is not enabled
(in particular a thread at `atInstance` is blocked while `life` is
`constructing`: it must wait for the constructing thread). -/
def cstep (c : CConfig) : CAct → Option CConfig
  | .enter i =>
      -- the `static mutex` and `static lock_guard guard(mutex)` lines:
      -- the first thread through initializes the guard, locking the mutex;
      -- every later thread sees the guard initialized and skips.  Either
      -- way the guard is initialized and the mutex locked afterwards.
      match c.tpcs[i]? with
      | some .entry =>
          some { c with guardReady := true, mutexLocked := true
                        tpcs := c.tpcs.set i .atInstance }
      | _ => none
  | .beginCtor i =>
      -- first thread to reach `static TestClass2 instance;` wins the race
      match c.tpcs[i]?, c.life with
      | some .atInstance, .uninitialized =>
          some { c with life := .constructing, ctorCount := c.ctorCount + 1
                        tpcs := c.tpcs.set i .inCtor }
      | _, _ => none
  | .finishCtor i =>
      -- the constructor body completes; the instance gets its identity
      match c.tpcs[i]? with
      | some .inCtor =>
          some { c with life := .ready, instId := c.nextId
                        nextId := c.nextId + 1
                        tpcs := c.tpcs.set i .atInstance }
      | _ => none
  | .takeRef i =>
      -- `return instance;` — only possible once the instance is ready
      match c.tpcs[i]?, c.life with
      | some .atInstance, .ready =>
          some { c with tpcs := c.tpcs.set i (.returned c.instId) }
      | _, _ => none

/-- Run a list of scheduler choices. -/
def crun (c : CConfig) : List CAct → Option CConfig
  | [] => some c
  | a :: acts =>
      match cstep c a with
      | some c1 => crun c1 acts
      | none => none

/-- A configuration reachable from the `n`-thread initial one under some
interleaving. -/
def CReach (n : Nat) (c : CConfig) : Prop :=
  ∃ acts, crun (cinit n) acts = some c

/-- Inductive invariant of the `n`-thread race. -/
def CInv (n : Nat) (c : CConfig) : Prop :=
  c.tpcs.length = n ∧
  c.ctorCount ≤ 1 ∧
  (c.life = .uninitialized ↔ c.ctorCount = 0) ∧
  (∀ i : Nat, c.tpcs[i]? = some .inCtor → c.life = .constructing) ∧
  (∀ i j : Nat, c.tpcs[i]? = some .inCtor → c.tpcs[j]? = some .inCtor → i = j) ∧
  (∀ (i r : Nat), c.tpcs[i]? = some (.returned r) → c.life = .ready ∧ r = c.instId)

/-- Looking up in a list after `set`: either we hit the updated index or
the list is unchanged there. -/
theorem set_lookup {α : Type} {l : List α} {i j : Nat} {v w : α}
    (h : (l.set i v)[j]? = some w) :
    (i = j ∧ w = v) ∨ (i ≠ j ∧ l[j]? = some w) := by
  rw [List.getElem?_set] at h
  split at h
  · split at h
    · refine Or.inl ⟨by assumption, ?_⟩
      injection h with h
      exact h.symm
    · exact Option.noConfusion h
  · exact Or.inr ⟨by assumption, h⟩

theorem replicate_lookup {α : Type} {n j : Nat} {v w : α}
    (h : (List.replicate n v)[j]? = some w) : w = v := by
  rw [List.getElem?_replicate] at h
  split at h
  · injection h with h
    exact h.symm
  · exact Option.noConfusion h

theorem cinit_inv (n : Nat) : CInv n (cinit n) := by
  refine ⟨by simp [cinit], by simp [cinit], by simp [cinit], ?_, ?_, ?_⟩
  · intro i hi
    exact absurd (replicate_lookup hi) (by simp)
  · intro i j hi _
    exact absurd (replicate_lookup hi) (by simp)
  · intro i r hi
    exact absurd (replicate_lookup hi) (by simp)

theorem cstep_inv {n : Nat} {c c' : CConfig} {a : CAct}
    (hstep : cstep c a = some c') (hinv : CInv n c) : CInv n c' := by
  obtain ⟨hlen, hcnt, huninit, hctor, huniq, hret⟩ := hinv
  cases a with
  | enter i =>
      simp only [cstep] at hstep
      split at hstep
      case _ heq =>
        cases hstep
        refine ⟨by simpa using hlen, hcnt, huninit, ?_, ?_, ?_⟩
        · intro j hj
          rcases set_lookup hj with ⟨_, hw⟩ | ⟨_, hj2⟩
          · exact TPC.noConfusion hw
          · exact hctor j hj2
        · intro j k hj hk
          rcases set_lookup hj with ⟨_, hw⟩ | ⟨_, hj2⟩
          · exact TPC.noConfusion hw
          · rcases set_lookup hk with ⟨_, hw⟩ | ⟨_, hk2⟩
            · exact TPC.noConfusion hw
            · exact huniq j k hj2 hk2
        · intro j r hj
          rcases set_lookup hj with ⟨_, hw⟩ | ⟨_, hj2⟩
          · exact TPC.noConfusion hw
          · exact hret j r hj2
      case _ => exact Option.noConfusion hstep
  | beginCtor i =>
      simp only [cstep] at hstep
      split at hstep
      case _ heqi heql =>
        cases hstep
        have hc0 : c.ctorCount = 0 := huninit.mp heql
        refine ⟨by simpa using hlen, by show c.ctorCount + 1 ≤ 1; omega,
                by simp, ?_, ?_, ?_⟩
        · intro j hj
          rfl
        · intro j k hj hk
          rcases set_lookup hj with ⟨hij, _⟩ | ⟨hij, hj2⟩
          · rcases set_lookup hk with ⟨hik, _⟩ | ⟨hik, hk2⟩
            · omega
            · have := hctor k hk2
              rw [heql] at this
              exact LifeState.noConfusion this
          · have := hctor j hj2
            rw [heql] at this
            exact LifeState.noConfusion this
        · intro j r hj
          rcases set_lookup hj with ⟨_, hw⟩ | ⟨_, hj2⟩
          · exact TPC.noConfusion hw
          · have := (hret j r hj2).1
            rw [heql] at this
            exact LifeState.noConfusion this
      case _ => exact Option.noConfusion hstep
  | finishCtor i =>
      simp only [cstep] at hstep
      split at hstep
      case _ heq =>
        cases hstep
        have hlife : c.life = .constructing := hctor i heq
        refine ⟨by simpa using hlen, hcnt, ?_, ?_, ?_, ?_⟩
        · constructor
          · intro h
            exact LifeState.noConfusion h
          · intro h
            have := huninit.mpr h
            rw [hlife] at this
            exact LifeState.noConfusion this
        · intro j hj
          rcases set_lookup hj with ⟨_, hw⟩ | ⟨hij, hj2⟩
          · exact TPC.noConfusion hw
          · exact absurd (huniq i j heq hj2) hij
        · intro j k hj hk
          rcases set_lookup hj with ⟨_, hw⟩ | ⟨hij, hj2⟩
          · exact TPC.noConfusion hw
          · exact absurd (huniq i j heq hj2) hij
        · intro j r hj
          rcases set_lookup hj with ⟨_, hw⟩ | ⟨_, hj2⟩
          · exact TPC.noConfusion hw
          · have := (hret j r hj2).1
            rw [hlife] at this
            exact LifeState.noConfusion this
      case _ => exact Option.noConfusion hstep
  | takeRef i =>
      simp only [cstep] at hstep
      split at hstep
      case _ heqi heql =>
        cases hstep
        refine ⟨by simpa using hlen, hcnt, huninit, ?_, ?_, ?_⟩
        · intro j hj
          rcases set_lookup hj with ⟨_, hw⟩ | ⟨_, hj2⟩
          · exact TPC.noConfusion hw
          · exact hctor j hj2
        · intro j k hj hk
          rcases set_lookup hj with ⟨_, hw⟩ | ⟨_, hj2⟩
          · exact TPC.noConfusion hw
          · rcases set_lookup hk with ⟨_, hw⟩ | ⟨_, hk2⟩
            · exact TPC.noConfusion hw
            · exact huniq j k hj2 hk2
        · intro j r hj
          rcases set_lookup hj with ⟨_, hw⟩ | ⟨_, hj2⟩
          · injection hw with hw
            exact ⟨heql, hw⟩
          · exact hret j r hj2
      case _ => exact Option.noConfusion hstep

theorem crun_inv {n : Nat} {c c' : CConfig} {acts : List CAct}
    (hrun : crun c acts = some c') (hinv : CInv n c) : CInv n c' := by
  induction acts generalizing c with
  | nil => simp [crun] at hrun; simpa [← hrun] using hinv
  | cons a acts ih =>
      simp only [crun] at hrun
      split at hrun
      case _ c1 hstep => exact ih hrun (cstep_inv hstep hinv)
      case _ => exact absurd hrun (by simp)

theorem creach_inv {n : Nat} {c : CConfig} (h : CReach n c) : CInv n c := by
  obtain ⟨acts, hrun⟩ := h
  exact crun_inv hrun (cinit_inv n)

/-! ## Whole-program model of `multithreading_test` (lines 216-257)

`multithreading_test` detaches a worker thread running `thread_main_1`
(an infinite `while(1)` loop that calls `GetInstance` each iteration) and
then calls `GetInstance` five times itself from the main thread.  When
`main` returns, the C++ runtime destroys the constructed function-local
statics — `instance` first (running `~TestClass2` exactly once), then the
`lock_guard` (unlocking the mutex), then the mutex — *without* waiting for
the detached worker, which keeps running until the process ends and whose
next `GetInstance` call then reaches the already-destroyed instance (the
initialization flags of the statics are not reset by destruction, so the
call returns a reference to the dead object). -/

/-- The two threads of the multithreading example. -/
inductive Who where
  | mainThread
  | worker
  deriving DecidableEq, Repr

/-- Observable events of a program run. -/
inductive Ev where
  /-- the `TestClass2` constructor completed -/
  | ctorDone
  /-- a `GetInstance` call returned a reference; `alive` records whether
  the referenced instance was still alive (not yet destroyed) -/
  | ret (w : Who) (alive : Bool)
  /-- `~TestClass2` ran (static destruction at `main` exit) -/
  | dtorRun
  deriving DecidableEq, Repr

/-- Position of a thread relative to its current `GetInstance` call. -/
inductive Phase where
  | beforeCall
  | atInst
  | inCtor
  deriving DecidableEq, Repr

/-- Configuration of the whole program. -/
structure PConfig where
  life : LifeState
  guardReady : Bool
  mutexLocked : Bool
  ctorCount : Nat
  dtorCount : Nat
  /-- iterations of `multithreading_test`'s `while (count <= 5)` loop
  still to run -/
  mainCallsLeft : Nat
  /-- `none` once `multithreading_test`/`main` has returned -/
  mainPhase : Option Phase
  /-- the worker's `while(1)` loop never exits, so the worker always has a
  phase -/
  workerPhase : Phase
  /-- have the static destructors run? -/
  shutdownDone : Bool
  events : List Ev
  deriving DecidableEq, Repr

/-- Start of `multithreading_test`: worker detached, nothing initialized. -/
def pinit : PConfig :=
  { life := .uninitialized, guardReady := false, mutexLocked := false
    ctorCount := 0, dtorCount := 0, mainCallsLeft := 5
    mainPhase := some .beforeCall, workerPhase := .beforeCall
    shutdownDone := false, events := [] }

/-- Scheduler choices for the whole program. -/
inductive PAct where
  | menter | mbegin | mfinish | mtake
  | wenter | wbegin | wfinish | wtake
  | shutdown
  deriving DecidableEq, Repr

/-- One atomic step of the program.  The `enter`/`begin`/`finish`/`take`
steps follow the `GetInstance` body exactly as in `cstep`; `shutdown` is
the C++ runtime destroying the constructed statics when `main` returns,
regardless of the detached worker. -/
def pstep (c : PConfig) : PAct → Option PConfig
  | .menter =>
      match c.mainPhase with
      | some .beforeCall =>
          if 0 < c.mainCallsLeft then
            if c.guardReady then some { c with mainPhase := some .atInst }
            else some { c with guardReady := true, mutexLocked := true
                               mainPhase := some .atInst }
          else none
      | _ => none
  | .mbegin =>
      match c.mainPhase, c.life with
      | some .atInst, .uninitialized =>
          some { c with life := .constructing, ctorCount := c.ctorCount + 1
                        mainPhase := some .inCtor }
      | _, _ => none
  | .mfinish =>
      match c.mainPhase with
      | some .inCtor =>
          some { c with life := .ready, events := c.events ++ [Ev.ctorDone]
                        mainPhase := some .atInst }
      | _ => none
  | .mtake =>
      match c.mainPhase, c.life with
      | some .atInst, .ready =>
          some { c with events := c.events ++ [Ev.ret .mainThread true]
                        mainCallsLeft := c.mainCallsLeft - 1
                        mainPhase := if c.mainCallsLeft ≤ 1 then none
                                     else some .beforeCall }
      | _, _ => none
  | .wenter =>
      match c.workerPhase with
      | .beforeCall =>
          if c.guardReady then some { c with workerPhase := .atInst }
          else some { c with guardReady := true, mutexLocked := true
                             workerPhase := .atInst }
      | _ => none
  | .wbegin =>
      match c.workerPhase, c.life with
      | .atInst, .uninitialized =>
          some { c with life := .constructing, ctorCount := c.ctorCount + 1
                        workerPhase := .inCtor }
      | _, _ => none
  | .wfinish =>
      match c.workerPhase with
      | .inCtor =>
          some { c with life := .ready, events := c.events ++ [Ev.ctorDone]
                        workerPhase := .atInst }
      | _ => none
  | .wtake =>
      -- the worker loops forever: after returning it goes back to
      -- `beforeCall` for the next iteration.  After static destruction
      -- the initialization flags are still set, so the call simply
      -- returns a reference to the destroyed instance.
      match c.workerPhase, c.life with
      | .atInst, .ready =>
          some { c with events := c.events ++ [Ev.ret .worker true]
                        workerPhase := .beforeCall }
      | .atInst, .destroyed =>
          some { c with events := c.events ++ [Ev.ret .worker false]
                        workerPhase := .beforeCall }
      | _, _ => none
  | .shutdown =>
      -- `main` returned: the runtime destroys the constructed statics in
      -- reverse construction order (`instance`, then `guard` — unlocking
      -- the mutex — then `mutex`), without waiting for the worker.
      match c.mainPhase, c.shutdownDone with
      | none, false =>
          some { c with
            shutdownDone := true
            mutexLocked := if c.guardReady then false else c.mutexLocked
            life := if c.life = .ready then .destroyed else c.life
            dtorCount := if c.life = .ready then c.dtorCount + 1
                         else c.dtorCount
            events := if c.life = .ready then c.events ++ [Ev.dtorRun]
                      else c.events }
      | _, _ => none

/-- Run a list of scheduler choices on the whole program. -/
def prun (c : PConfig) : List PAct → Option PConfig
  | [] => some c
  | a :: acts =>
      match pstep c a with
      | some c1 => prun c1 acts
      | none => none

/-- A program configuration reachable under some interleaving. -/
def PReach (c : PConfig) : Prop :=
  ∃ acts, prun pinit acts = some c

/-- Inductive invariant of the whole program. -/
def PInv (c : PConfig) : Prop :=
  c.ctorCount ≤ 1 ∧
  (c.life = .uninitialized ↔ c.ctorCount = 0) ∧
  (c.mainPhase = some .inCtor → c.life = .constructing) ∧
  (c.workerPhase = .inCtor → c.life = .constructing) ∧
  ¬(c.mainPhase = some .inCtor ∧ c.workerPhase = .inCtor) ∧
  (c.life = .destroyed ↔ c.dtorCount = 1) ∧
  c.dtorCount ≤ 1 ∧
  (c.life = .destroyed → c.shutdownDone = true) ∧
  (c.shutdownDone = true → c.mainPhase = none ∧ c.life = .destroyed) ∧
  (c.mainPhase = none → (c.life = .ready ∨ c.life = .destroyed))

theorem pinit_inv : PInv pinit := by
  refine ⟨?_, ?_, ?_, ?_, ?_, ?_, ?_, ?_, ?_, ?_⟩ <;> simp [pinit]

theorem pstep_inv {c c' : PConfig} {a : PAct}
    (hstep : pstep c a = some c') (hinv : PInv c) : PInv c' := by
  obtain ⟨hcnt, huninit, hmctor, hwctor, hexcl, hdes, hdcnt, hdsh, hsh, hmn⟩ :=
    hinv
  cases a with
  | menter =>
      simp only [pstep] at hstep
      split at hstep
      case _ heq =>
        split at hstep
        · split at hstep <;>
          · cases hstep
            refine ⟨hcnt, huninit, by simp, hwctor, ?_, hdes, hdcnt, hdsh,
                    ?_, by simp⟩
            · intro h
              exact absurd h.1 (by simp)
            · intro h
              exact absurd ((hsh h).1) (by simp [heq])
        · exact Option.noConfusion hstep
      case _ => exact Option.noConfusion hstep
  | mbegin =>
      simp only [pstep] at hstep
      split at hstep
      case _ heqp heql =>
        cases hstep
        have hc0 : c.ctorCount = 0 := huninit.mp heql
        have hw : c.workerPhase ≠ .inCtor := by
          intro h
          have := hwctor h
          rw [heql] at this
          exact LifeState.noConfusion this
        have hd : c.dtorCount ≠ 1 := by
          intro h
          have := hdes.mpr h
          rw [heql] at this
          exact LifeState.noConfusion this
        refine ⟨by show c.ctorCount + 1 ≤ 1; omega, by simp, by simp,
                ?_, ?_, ?_, hdcnt, ?_, ?_, ?_⟩
        · intro h
          exact absurd h hw
        · intro h
          exact absurd h.2 hw
        · show LifeState.constructing = .destroyed ↔ c.dtorCount = 1
          constructor
          · intro h
            exact LifeState.noConfusion h
          · intro h
            exact absurd h hd
        · intro h
          exact LifeState.noConfusion h
        · intro h
          exact absurd ((hsh h).1) (by simp [heqp])
        · intro h
          exact Option.noConfusion h
      case _ => exact Option.noConfusion hstep
  | mfinish =>
      simp only [pstep] at hstep
      split at hstep
      case _ heqp =>
        cases hstep
        have hlife : c.life = .constructing := hmctor heqp
        have hc1 : c.ctorCount ≠ 0 := by
          intro h
          have := huninit.mpr h
          rw [hlife] at this
          exact LifeState.noConfusion this
        have hd : c.dtorCount ≠ 1 := by
          intro h
          have := hdes.mpr h
          rw [hlife] at this
          exact LifeState.noConfusion this
        have hw : c.workerPhase ≠ .inCtor := fun h => hexcl ⟨heqp, h⟩
        refine ⟨hcnt, ?_, by simp, fun h => absurd h hw, ?_, ?_, hdcnt,
                ?_, ?_, ?_⟩
        · show LifeState.ready = .uninitialized ↔ c.ctorCount = 0
          constructor
          · intro h
            exact LifeState.noConfusion h
          · intro h
            exact absurd h hc1
        · intro h
          exact absurd h.2 hw
        · show LifeState.ready = .destroyed ↔ c.dtorCount = 1
          constructor
          · intro h
            exact LifeState.noConfusion h
          · intro h
            exact absurd h hd
        · intro h
          exact LifeState.noConfusion h
        · intro h
          exact absurd ((hsh h).1) (by simp [heqp])
        · intro h
          exact Option.noConfusion h
      case _ => exact Option.noConfusion hstep
  | mtake =>
      simp only [pstep] at hstep
      split at hstep
      case _ heqp heql =>
        cases hstep
        refine ⟨hcnt, huninit, by intro h; split at h <;> simp_all,
                hwctor, ?_, hdes, hdcnt, hdsh, ?_, ?_⟩
        · intro h
          have := h.1
          split at this <;> simp_all
        · intro h
          exact absurd ((hsh h).1) (by simp [heqp])
        · intro _
          show c.life = .ready ∨ c.life = .destroyed
          exact Or.inl heql
      case _ => exact Option.noConfusion hstep
  | wenter =>
      simp only [pstep] at hstep
      split at hstep
      case _ heq =>
        split at hstep <;>
        · cases hstep
          refine ⟨hcnt, huninit, hmctor, by simp, ?_, hdes, hdcnt, hdsh,
                  ?_, hmn⟩
          · intro h
            exact Phase.noConfusion h.2
          · intro h
            exact hsh h
      case _ => exact Option.noConfusion hstep
  | wbegin =>
      simp only [pstep] at hstep
      split at hstep
      case _ heqp heql =>
        cases hstep
        have hc0 : c.ctorCount = 0 := huninit.mp heql
        have hm : c.mainPhase ≠ some .inCtor := by
          intro h
          have := hmctor h
          rw [heql] at this
          exact LifeState.noConfusion this
        have hd : c.dtorCount ≠ 1 := by
          intro h
          have := hdes.mpr h
          rw [heql] at this
          exact LifeState.noConfusion this
        have hmn2 : c.mainPhase ≠ none := by
          intro h
          rcases hmn h with h2 | h2 <;>
            · rw [heql] at h2
              exact LifeState.noConfusion h2
        refine ⟨by show c.ctorCount + 1 ≤ 1; omega, by simp,
                fun h => absurd h hm, by simp, ?_, ?_, hdcnt, ?_, ?_, ?_⟩
        · intro h
          exact absurd h.1 hm
        · show LifeState.constructing = .destroyed ↔ c.dtorCount = 1
          constructor
          · intro h
            exact LifeState.noConfusion h
          · intro h
            exact absurd h hd
        · intro h
          exact LifeState.noConfusion h
        · intro h
          exact absurd ((hsh h).1) hmn2
        · intro h
          exact absurd h hmn2
      case _ => exact Option.noConfusion hstep
  | wfinish =>
      simp only [pstep] at hstep
      split at hstep
      case _ heqp =>
        cases hstep
        have hlife : c.life = .constructing := hwctor heqp
        have hc1 : c.ctorCount ≠ 0 := by
          intro h
          have := huninit.mpr h
          rw [hlife] at this
          exact LifeState.noConfusion this
        have hd : c.dtorCount ≠ 1 := by
          intro h
          have := hdes.mpr h
          rw [hlife] at this
          exact LifeState.noConfusion this
        have hm : c.mainPhase ≠ some .inCtor := fun h => hexcl ⟨h, heqp⟩
        have hmn2 : c.mainPhase ≠ none := by
          intro h
          rcases hmn h with h2 | h2 <;>
            · rw [hlife] at h2
              exact LifeState.noConfusion h2
        refine ⟨hcnt, ?_, fun h => absurd h hm, by simp, ?_, ?_, hdcnt,
                ?_, ?_, ?_⟩
        · show LifeState.ready = .uninitialized ↔ c.ctorCount = 0
          constructor
          · intro h
            exact LifeState.noConfusion h
          · intro h
            exact absurd h hc1
        · intro h
          exact absurd h.1 hm
        · show LifeState.ready = .destroyed ↔ c.dtorCount = 1
          constructor
          · intro h
            exact LifeState.noConfusion h
          · intro h
            exact absurd h hd
        · intro h
          exact LifeState.noConfusion h
        · intro h
          exact absurd ((hsh h).1) hmn2
        · intro h
          exact absurd h hmn2
      case _ => exact Option.noConfusion hstep
  | wtake =>
      simp only [pstep] at hstep
      split at hstep
      case _ heqp heql =>
        cases hstep
        exact ⟨hcnt, huninit, hmctor, by simp, fun h => Phase.noConfusion h.2,
               hdes, hdcnt, hdsh, hsh, hmn⟩
      case _ heqp heql =>
        cases hstep
        exact ⟨hcnt, huninit, hmctor, by simp, fun h => Phase.noConfusion h.2,
               hdes, hdcnt, hdsh, hsh, hmn⟩
      case _ => exact Option.noConfusion hstep
  | shutdown =>
      simp only [pstep] at hstep
      split at hstep
      case _ heqp heqs =>
        cases hstep
        have hlife : c.life = .ready := by
          rcases hmn heqp with h | h
          · exact h
          · exact absurd (hdsh h) (by simp [heqs])
        have hd0 : c.dtorCount = 0 := by
          have h1 : c.dtorCount ≠ 1 := by
            intro h
            have := hdes.mpr h
            rw [hlife] at this
            exact LifeState.noConfusion this
          omega
        have hc1 : c.ctorCount ≠ 0 := by
          intro h
          have := huninit.mpr h
          rw [hlife] at this
          exact LifeState.noConfusion this
        have hm : c.mainPhase ≠ some .inCtor := by
          simp [heqp]
        have hw : c.workerPhase ≠ .inCtor := by
          intro h
          have := hwctor h
          rw [hlife] at this
          exact LifeState.noConfusion this
        refine ⟨hcnt, ?_, fun h => absurd h hm, fun h => absurd h hw,
                fun h => absurd h.1 hm, ?_, ?_, ?_, ?_, ?_⟩
        · simp only [hlife, if_pos]
          constructor
          · intro h
            exact LifeState.noConfusion h
          · intro h
            exact absurd h hc1
        · simp [hlife, hd0]
        · simp [hlife, hd0]
        · intro _
          rfl
        · intro _
          exact ⟨heqp, by simp [hlife]⟩
        · intro _
          exact Or.inr (by simp [hlife])
      case _ => exact Option.noConfusion hstep

theorem prun_inv {c c' : PConfig} {acts : List PAct}
    (hrun : prun c acts = some c') (hinv : PInv c) : PInv c' := by
  induction acts generalizing c with
  | nil =>
      simp [prun] at hrun
      simpa [← hrun] using hinv
  | cons a acts ih =>
      simp only [prun] at hrun
      split at hrun
      case _ c1 hstep => exact ih hrun (pstep_inv hstep hinv)
      case _ => exact Option.noConfusion hrun

theorem preach_inv {c : PConfig} (h : PReach c) : PInv c := by
  obtain ⟨acts, hrun⟩ := h
  exact prun_inv hrun pinit_inv

/-! ## Serialization example (`serialization_api_test`, lines 84-121)

`std::map<int,string>` is modelled as an association list that `insert`
keeps strictly sorted by key (like the red-black tree behind `std::map`,
iteration order = ascending keys; `insert` does not overwrite an existing
key).  The Boost binary archive is third-party code; it is modelled as a
token-stream codec faithful to what `boost/serialization/map.hpp` does for
a map: store the element count, then each `(key, value)` pair in iteration
order; load reads the count and inserts the pairs one by one into the
(empty) destination map. -/

/-- `std::map<int,string>::insert` on a sorted association list: keeps keys
strictly ascending, does nothing if the key is already present. -/
def mapInsert (k : Int) (v : String) : List (Int × String) → List (Int × String)
  | [] => [(k, v)]
  | (k1, v1) :: rest =>
      if k < k1 then (k, v) :: (k1, v1) :: rest
      else if k = k1 then (k1, v1) :: rest
      else (k1, v1) :: mapInsert k v rest

/-- The map `mymap1` built at lines 89-93. -/
def mymap1 : List (Int × String) :=
  mapInsert 5 "message." (mapInsert 4 "a " (mapInsert 3 "is "
    (mapInsert 2 "this " (mapInsert 1 "Hello, " []))))

/-- Tokens written to / read from the binary archive. -/
inductive Token where
  | count (n : Nat)
  | key (k : Int)
  | val (v : String)
  deriving DecidableEq, Repr

/-- `oa << mymap1` (line 107): Boost map serialization writes the element
count and then every pair in iteration order. -/
def serializeMap (m : List (Int × String)) : List Token :=
  Token.count m.length :: m.flatMap (fun p => [Token.key p.1, Token.val p.2])

/-- Read back `n` pairs from the stream, inserting each into the
accumulator map, as the Boost map loader does. -/
def loadPairs : Nat → List Token → List (Int × String) → Option (List (Int × String))
  | 0, _, acc => some acc
  | n + 1, Token.key k :: Token.val v :: rest, acc =>
      loadPairs n rest (mapInsert k v acc)
  | _ + 1, _, _ => none

/-- `ia >> mymap2` (line 116): read the count, then that many pairs into
the initially empty `mymap2`. -/
def deserializeMap : List Token → Option (List (Int × String))
  | Token.count n :: rest => loadPairs n rest []
  | _ => none

/-! ## Shared-pointer example (`shared_pointer_test`, lines 153-171)

`boost::shared_ptr<TestClass1>` is modelled by explicit reference counting
on a small heap.  Objects are identified by allocation order (`TestClass1(1)`
gets id 0, `TestClass1(2)` id 1, `TestClass1(3)` id 2).  Dropping the last
reference runs `~TestClass1`, which is recorded in a destruction log. -/

/-- Heap of live `TestClass1` objects plus the destructor log. -/
structure SPHeap where
  /-- live objects: `(id, m_value, refcount)` -/
  live : List (Nat × Int × Nat)
  /-- next allocation id -/
  nextId : Nat
  /-- ids whose `~TestClass1` has run, in order of destruction -/
  dtorLog : List Nat
  deriving DecidableEq, Repr

def SPHeap.start : SPHeap := { live := [], nextId := 0, dtorLog := [] }

/-- `boost::shared_ptr<TestClass1> p(new TestClass1(value))`:
allocate a fresh object with reference count 1, return its id. -/
def spNew (value : Int) (h : SPHeap) : Nat × SPHeap :=
  (h.nextId,
    { live := h.live ++ [(h.nextId, value, 1)], nextId := h.nextId + 1
      dtorLog := h.dtorLog })

/-- Decrement the reference count of `i`; at zero the object's destructor
runs (`delete[] m_data`, log entry) and it leaves the heap. -/
def spDrop (i : Nat) (h : SPHeap) : SPHeap :=
  match h.live.filter (fun e => e.1 = i) with
  | (_, _, 1) :: _ =>
      { live := h.live.filter (fun e => ¬ e.1 = i), nextId := h.nextId
        dtorLog := h.dtorLog ++ [i] }
  | (_, v, n + 2) :: _ =>
      { live := h.live.map (fun e => if e.1 = i then (i, v, n + 1) else e)
        nextId := h.nextId, dtorLog := h.dtorLog }
  | _ => h

/-- `shared_pointer_test1` (lines 153-159): three allocations; returning
`bptr_tc13` elides the copy (the returned pointer is the same reference),
then the remaining locals `bptr_tc12`, `bptr_tc11` are destroyed in reverse
declaration order. -/
def shared_pointer_test1 (h : SPHeap) : Nat × SPHeap :=
  let (p11, h) := spNew 1 h
  let (p12, h) := spNew 2 h
  let (p13, h) := spNew 3 h
  let h := spDrop p12 h
  let h := spDrop p11 h
  (p13, h)

/-- `shared_pointer_test` (lines 161-171): holds the returned pointer in
`bptr`, which goes out of scope when the function returns. -/
def shared_pointer_test (h : SPHeap) : SPHeap :=
  let (bptr, h) := shared_pointer_test1 h
  spDrop bptr h

/-! ## A concrete interleaving of the whole program

`main` performs its five `GetInstance` calls (the first one constructing
the instance) and returns; the runtime destroys the statics; the detached
worker then makes one more `GetInstance` call and receives a reference to
the already-destroyed instance. -/

/-- The interleaving described above. -/
def badActs : List PAct :=
  [.menter, .mbegin, .mfinish, .mtake,
   .menter, .mtake, .menter, .mtake, .menter, .mtake, .menter, .mtake,
   .shutdown, .wenter, .wtake]

/-- The configuration `badActs` leads to. -/
def badConfig : PConfig :=
  { life := .destroyed, guardReady := true, mutexLocked := false
    ctorCount := 1, dtorCount := 1, mainCallsLeft := 0, mainPhase := none
    workerPhase := .beforeCall, shutdownDone := true
    events := [Ev.ctorDone,
               Ev.ret .mainThread true, Ev.ret .mainThread true,
               Ev.ret .mainThread true, Ev.ret .mainThread true,
               Ev.ret .mainThread true,
               Ev.dtorRun, Ev.ret .worker false] }

/-- Did some event in the list hand a caller a reference to an object that
was no longer alive? -/
def deadRet (evs : List Ev) : Bool :=
  evs.any fun e =>
    match e with
    | Ev.ret _ false => true
    | _ => false

/-- Does a `GetInstance` return occur after the destructor has run? -/
def retAfterDtor : List Ev → Bool
  | [] => false
  | Ev.dtorRun :: rest =>
      rest.any fun e =>
        match e with
        | Ev.ret _ _ => true
        | _ => false
  | _ :: rest => retAfterDtor rest

/-! ## Random-number example (`rand_from_uniform_dstrb_test`, lines 36-63)

The function seeds `boost::mt19937` with the literal constant `12411`
(line 39) and prints ten samples of `boost::normal_distribution<>(50, 10)`
drawn through a `variate_generator`.  `boost::mt19937` is the standard
MT19937 Mersenne Twister, implemented here bit-faithfully over
`Nat mod 2^32`.  The normal-distribution transform operates on floating
point; it is a fixed per-run deterministic function of the raw 32-bit
generator stream, and the model takes it as an explicit function parameter
`normalDistr` consuming that stream.  The external state of the machine
(what a seed such as `time(NULL)` would read) is modelled by `OsEnv`; the
source reads none of it. -/

/-- `2^32`, the word modulus of mt19937. -/
def M32 : Nat := 4294967296

/-- The mt19937 state-vector recurrence
`x_i = (1812433253 * (x_pred ^^^ (x_pred >>> 30)) + i) mod 2^32`,
producing `k` further words starting at index `i`. -/
def mtInitAux : Nat → Nat → Nat → List Nat
  | 0, _, _ => []
  | k + 1, prev, i =>
      let x := (1812433253 * (prev ^^^ (prev >>> 30)) + i) % M32
      x :: mtInitAux k x (i + 1)

/-- Seeding: the 624-word initial state vector of mt19937. -/
def mtInitState (seed : Nat) : List Nat :=
  (seed % M32) :: mtInitAux 623 (seed % M32) 1

/-- One in-place step of the mt19937 twist at position `i` (positions 227
and up already read back twisted words, hence the sequential `set`). -/
def twistStep (mt : List Nat) (i : Nat) : List Nat :=
  let y := ((mt.getD i 0) &&& 0x80000000) |||
           ((mt.getD ((i + 1) % 624) 0) &&& 0x7FFFFFFF)
  let v := (mt.getD ((i + 397) % 624) 0) ^^^ (y >>> 1) ^^^
           (if y % 2 = 1 then 0x9908B0DF else 0)
  mt.set i v

/-- The full mt19937 twist of the 624-word state. -/
def mtTwist (mt : List Nat) : List Nat :=
  (List.range 624).foldl twistStep mt

/-- The mt19937 tempering of one raw word. -/
def mtTemper (x : Nat) : Nat :=
  let y1 := x ^^^ (x >>> 11)
  let y2 := y1 ^^^ ((y1 <<< 7) &&& 0x9D2C5680)
  let y3 := y2 ^^^ ((y2 <<< 15) &&& 0xEFC60000)
  y3 ^^^ (y3 >>> 18)

/-- Draw one output from an mt19937 state `(index, words)`. -/
def mtNext : Nat × List Nat → Nat × (Nat × List Nat)
  | (i, mt) =>
      if i < 624 then (mtTemper (mt.getD i 0), (i + 1, mt))
      else
        let mt2 := mtTwist mt
        (mtTemper (mt2.getD 0 0), (1, mt2))

/-- The first `k` outputs of the generator from a given state. -/
def mtStreamAux : Nat → Nat × List Nat → List Nat
  | 0, _ => []
  | k + 1, st =>
      let (x, st2) := mtNext st
      x :: mtStreamAux k st2

/-- The first `k` outputs of `boost::mt19937 rng(seed)` (a freshly seeded
generator starts at index 624, so the first draw twists). -/
def mt19937Stream (seed k : Nat) : List Nat :=
  mtStreamAux k (624, mtInitState seed)

/-- External machine state a program could draw a nondeterministic seed
from.  `rand_from_uniform_dstrb_test` reads none of it. -/
structure OsEnv where
  time : Nat
  entropy : List Nat

/-- Line 39: `unsigned long seed = 12411;` — a literal constant,
independent of the environment. -/
def randTestSeed (_env : OsEnv) : Nat := 12411

/-- The sequence of values printed by `rand_from_uniform_dstrb_test`
(lines 36-63): ten samples of the normal distribution, drawn from the
mt19937 stream seeded with `randTestSeed`.  `normalDistr` is the
(deterministic) distribution transform of the raw stream and `fuel` bounds
how much of the stream it may consume. -/
def rand_from_uniform_dstrb_test {α : Type} (normalDistr : List Nat → List α)
    (env : OsEnv) (fuel : Nat) : List α :=
  (normalDistr (mt19937Stream (randTestSeed env) fuel)).take 10

/-! ## The claims -/

/-- C1: for every N ≥ 1 threads calling `GetInstance` concurrently for the
first time, the `TestClass2` constructor runs exactly once — in every
reachable configuration at most one construction has started and at most
one thread is inside the constructor, no thread returns before the
instance is ready (every other thread waits for the construction), and
once all N threads have returned, exactly one construction has happened
and all N threads hold a reference to the identical instance. -/
theorem C1_exactly_once_construction (n : Nat) (c : CConfig)
    (hn : 1 ≤ n) (hreach : CReach n c) :
    c.ctorCount ≤ 1 ∧
    (∀ i j : Nat, c.tpcs[i]? = some .inCtor → c.tpcs[j]? = some .inCtor →
        i = j) ∧
    (∀ (i r : Nat), c.tpcs[i]? = some (.returned r) →
        c.life = .ready ∧ r = c.instId) ∧
    (c.tpcs.all TPC.isReturned = true →
      c.ctorCount = 1 ∧
      ∀ (i j ri rj : Nat), c.tpcs[i]? = some (.returned ri) →
          c.tpcs[j]? = some (.returned rj) → ri = rj) := by
  obtain ⟨hlen, hcnt, huninit, hctor, huniq, hret⟩ := creach_inv hreach
  refine ⟨hcnt, huniq, hret, ?_⟩
  intro hall
  have hlt : 0 < c.tpcs.length := by omega
  obtain ⟨t, ht⟩ : ∃ t, c.tpcs[0]? = some t := by
    cases h : c.tpcs[0]? with
    | some t => exact ⟨t, rfl⟩
    | none =>
        rw [List.getElem?_eq_getElem hlt] at h
        exact Option.noConfusion h
  have hmem : t ∈ c.tpcs := by
    obtain ⟨h1, rfl⟩ := List.getElem?_eq_some.mp ht
    exact List.getElem_mem h1
  have hisret := List.all_eq_true.mp hall t hmem
  refine ⟨?_, ?_⟩
  · cases t with
    | returned r =>
        have hready := (hret 0 r ht).1
        have hne : c.ctorCount ≠ 0 := by
          intro h0
          have := huninit.mpr h0
          rw [hready] at this
          exact LifeState.noConfusion this
        omega
    | entry => exact Bool.noConfusion hisret
    | atInstance => exact Bool.noConfusion hisret
    | inCtor => exact Bool.noConfusion hisret
  · intro i j ri rj hi hj
    exact ((hret i ri hi).2).trans ((hret j rj hj).2).symm

/-- Two threads racing on the first call: thread 0 constructs, thread 1
waits and then takes the same reference. -/
def c1WitnessActs : List CAct :=
  [.enter 0, .enter 1, .beginCtor 0, .finishCtor 0, .takeRef 0, .takeRef 1]

/-- The configuration `c1WitnessActs` leads to from `cinit 2`. -/
def c1WitnessConfig : CConfig :=
  { life := .ready, guardReady := true, mutexLocked := true
    ctorCount := 1, nextId := 1, instId := 0
    tpcs := [.returned 0, .returned 0] }

/-- Witness for C1: the two-thread race of the source program
(`multithreading_test`), fully played out. -/
theorem C1_exactly_once_construction_witness :
    1 ≤ 2 ∧ CReach 2 c1WitnessConfig ∧
    (c1WitnessConfig.ctorCount ≤ 1 ∧
    (∀ i j : Nat, c1WitnessConfig.tpcs[i]? = some .inCtor →
        c1WitnessConfig.tpcs[j]? = some .inCtor → i = j) ∧
    (∀ (i r : Nat), c1WitnessConfig.tpcs[i]? = some (.returned r) →
        c1WitnessConfig.life = .ready ∧ r = c1WitnessConfig.instId) ∧
    (c1WitnessConfig.tpcs.all TPC.isReturned = true →
      c1WitnessConfig.ctorCount = 1 ∧
      ∀ (i j ri rj : Nat),
          c1WitnessConfig.tpcs[i]? = some (.returned ri) →
          c1WitnessConfig.tpcs[j]? = some (.returned rj) → ri = rj)) :=
  ⟨by decide, ⟨c1WitnessActs, by decide⟩,
   C1_exactly_once_construction 2 c1WitnessConfig (by decide)
     ⟨c1WitnessActs, by decide⟩⟩

/-- C2: any number n ≥ 1 of sequential `GetInstance` calls by a single
thread all return the same reference as the first call (generation 1), and
after them the constructor has run exactly once — the state is exactly the
state after the first call, so no reconstruction ever happened. -/
theorem C2_getInstance_idempotent (n : Nat) (hn : 1 ≤ n) :
    (runCalls n SState.start).1 = List.replicate n (Except.ok 1) ∧
    (runCalls n SState.start).2 = SState.afterFirst ∧
    SState.afterFirst.ctorCount = 1 := by
  obtain ⟨m, rfl⟩ : ∃ m, n = m + 1 := ⟨n - 1, by omega⟩
  have h2 := runCalls_stable m SState.afterFirst rfl rfl
  rw [runCalls_succ]
  simp only [GetInstance_start, h2]
  refine ⟨?_, trivial, rfl⟩
  rw [List.replicate_succ]
  rfl

/-- Witness for C2 at n = 3. -/
theorem C2_getInstance_idempotent_witness :
    1 ≤ 3 ∧
    ((runCalls 3 SState.start).1 = List.replicate 3 (Except.ok 1) ∧
    (runCalls 3 SState.start).2 = SState.afterFirst ∧
    SState.afterFirst.ctorCount = 1) :=
  ⟨by decide, C2_getInstance_idempotent 3 (by decide)⟩

/-- The kind of reference a function hands out. -/
inductive RefSort where
  /-- a plain C++ reference (`T&`) -/
  | plainRef
  /-- a reference-counted owning handle (such as `boost::shared_ptr`) -/
  | sharedOwning
  deriving DecidableEq, Repr

/-- From the source signature at line 191,
`static TestClass2 & GetInstance()`: the returned value is a plain C++
reference, not a reference-counted handle. -/
def getInstanceRefSort : RefSort := RefSort.plainRef

/-- C3 counterexample: `GetInstance` does not return a reference-counted
(or equivalent) reference whose object stays alive as long as a holder
retains it.  The return type is a plain reference, and in the reachable
whole-program configuration `badConfig` a caller (the detached worker) has
been handed a reference to the already-destroyed instance — a `ret` event
with `alive = false` — so the object did not remain alive for its holder. -/
theorem C3_counterexample :
    getInstanceRefSort = RefSort.plainRef ∧
    PReach badConfig ∧ deadRet badConfig.events = true :=
  ⟨rfl, ⟨badActs, by decide⟩, by decide⟩

/-- C3 (amended): `GetInstance` returns a plain (non-reference-counted)
reference to the single static instance; multiple holders are possible,
but the instance's lifetime is independent of them — once constructed it
stays alive exactly until the static destruction at process shutdown,
where it is destroyed exactly once. -/
theorem C3_plain_static_reference (c : PConfig) (hreach : PReach c) :
    getInstanceRefSort = RefSort.plainRef ∧
    (c.life = .destroyed → c.shutdownDone = true) ∧
    (c.life = .destroyed ↔ c.dtorCount = 1) := by
  obtain ⟨_, _, _, _, _, hdes, _, hdsh, _, _⟩ := preach_inv hreach
  exact ⟨rfl, hdsh, hdes⟩

/-- Witness for C3 (amended) at the reachable configuration `badConfig`. -/
theorem C3_plain_static_reference_witness :
    PReach badConfig ∧
    (getInstanceRefSort = RefSort.plainRef ∧
    (badConfig.life = .destroyed → badConfig.shutdownDone = true) ∧
    (badConfig.life = .destroyed ↔ badConfig.dtorCount = 1)) :=
  ⟨⟨badActs, by decide⟩,
   C3_plain_static_reference badConfig ⟨badActs, by decide⟩⟩

/-- C4: if the `TestClass2` constructor fails during a `GetInstance` call
whose instance is not yet constructed, the failure propagates to the
caller, the statics are left with the instance still unconstructed and the
construction count unchanged (a failed construction is never cached as
success), a subsequent call attempts construction again from scratch and
succeeds, and with a non-failing constructor (the real code's constructor
cannot fail) `GetInstance` never returns an error. -/
theorem C4_ctor_failure_retry (s : SState) (hni : s.instReady = false) :
    (GetInstance false s).1 = Except.error () ∧
    ((GetInstance false s).2).instReady = false ∧
    ((GetInstance false s).2).ctorCount = s.ctorCount ∧
    (GetInstance true ((GetInstance false s).2)).1 =
      Except.ok (s.ctorCount + 1) ∧
    ((GetInstance true ((GetInstance false s).2)).2).instReady = true ∧
    ((GetInstance true ((GetInstance false s).2)).2).ctorCount =
      s.ctorCount + 1 ∧
    (∀ t : SState, (GetInstance true t).1 ≠ Except.error ()) := by
  refine ⟨?_, ?_, ?_, ?_, ?_, ?_, ?_⟩
  · cases hg : s.guardReady <;> simp [GetInstance, hni, hg]
  · cases hg : s.guardReady <;> simp [GetInstance, hni, hg]
  · cases hg : s.guardReady <;> simp [GetInstance, hni, hg]
  · cases hg : s.guardReady <;> simp [GetInstance, hni, hg]
  · cases hg : s.guardReady <;> simp [GetInstance, hni, hg]
  · cases hg : s.guardReady <;> simp [GetInstance, hni, hg]
  · intro t
    cases hg : t.guardReady <;> cases hi : t.instReady <;>
      simp [GetInstance, hg, hi]

/-- Witness for C4 at the pristine state (no static initialized). -/
theorem C4_ctor_failure_retry_witness :
    SState.start.instReady = false ∧
    ((GetInstance false SState.start).1 = Except.error () ∧
    ((GetInstance false SState.start).2).instReady = false ∧
    ((GetInstance false SState.start).2).ctorCount = SState.start.ctorCount ∧
    (GetInstance true ((GetInstance false SState.start).2)).1 =
      Except.ok (SState.start.ctorCount + 1) ∧
    ((GetInstance true ((GetInstance false SState.start).2)).2).instReady =
      true ∧
    ((GetInstance true ((GetInstance false SState.start).2)).2).ctorCount =
      SState.start.ctorCount + 1 ∧
    (∀ t : SState, (GetInstance true t).1 ≠ Except.error ())) :=
  ⟨rfl, C4_ctor_failure_retry SState.start rfl⟩

/-- C5: the instance's lifecycle is the four-state machine
`Uninitialized → Constructing → Ready → Destroyed` — the whole program
starts with the instance `uninitialized`, every step either leaves the
lifecycle state unchanged or moves along one of the three listed edges,
`destroyed` is terminal, and a second `Uninitialized → Constructing`
transition never occurs (the construction count never exceeds one). -/
theorem C5_lifecycle_state_machine (c : PConfig) (a : PAct) (c' : PConfig)
    (hreach : PReach c) (hstep : pstep c a = some c') :
    pinit.life = .uninitialized ∧
    (c'.life = c.life ∨
      (c.life = .uninitialized ∧ c'.life = .constructing) ∨
      (c.life = .constructing ∧ c'.life = .ready) ∨
      (c.life = .ready ∧ c'.life = .destroyed)) ∧
    (c.life = .destroyed → c'.life = .destroyed) ∧
    c'.ctorCount ≤ 1 := by
  have hinv := preach_inv hreach
  have hcnt' := (pstep_inv hstep hinv).1
  obtain ⟨hcnt, huninit, hmctor, hwctor, hexcl, hdes, hdcnt, hdsh, hsh, hmn⟩ :=
    hinv
  refine ⟨rfl, ?_, ?_, hcnt'⟩
  · cases a with
    | menter =>
        simp only [pstep] at hstep
        split at hstep
        case _ =>
          split at hstep
          · split at hstep <;>
            · cases hstep
              exact Or.inl rfl
          · exact Option.noConfusion hstep
        case _ => exact Option.noConfusion hstep
    | mbegin =>
        simp only [pstep] at hstep
        split at hstep
        case _ heqp heql =>
          cases hstep
          exact Or.inr (Or.inl ⟨heql, rfl⟩)
        case _ => exact Option.noConfusion hstep
    | mfinish =>
        simp only [pstep] at hstep
        split at hstep
        case _ heqp =>
          cases hstep
          exact Or.inr (Or.inr (Or.inl ⟨hmctor heqp, rfl⟩))
        case _ => exact Option.noConfusion hstep
    | mtake =>
        simp only [pstep] at hstep
        split at hstep
        case _ heqp heql =>
          cases hstep
          exact Or.inl rfl
        case _ => exact Option.noConfusion hstep
    | wenter =>
        simp only [pstep] at hstep
        split at hstep
        case _ =>
          split at hstep <;>
          · cases hstep
            exact Or.inl rfl
        case _ => exact Option.noConfusion hstep
    | wbegin =>
        simp only [pstep] at hstep
        split at hstep
        case _ heqp heql =>
          cases hstep
          exact Or.inr (Or.inl ⟨heql, rfl⟩)
        case _ => exact Option.noConfusion hstep
    | wfinish =>
        simp only [pstep] at hstep
        split at hstep
        case _ heqp =>
          cases hstep
          exact Or.inr (Or.inr (Or.inl ⟨hwctor heqp, rfl⟩))
        case _ => exact Option.noConfusion hstep
    | wtake =>
        simp only [pstep] at hstep
        split at hstep
        case _ heqp heql =>
          cases hstep
          exact Or.inl rfl
        case _ heqp heql =>
          cases hstep
          exact Or.inl rfl
        case _ => exact Option.noConfusion hstep
    | shutdown =>
        simp only [pstep] at hstep
        split at hstep
        case _ heqp heqs =>
          cases hstep
          have hlife : c.life = .ready := by
            rcases hmn heqp with h | h
            · exact h
            · exact absurd (hdsh h) (by simp [heqs])
          refine Or.inr (Or.inr (Or.inr ⟨hlife, ?_⟩))
          show (if c.life = .ready then LifeState.destroyed else c.life) =
            .destroyed
          simp [hlife]
        case _ => exact Option.noConfusion hstep
  · intro hdead
    cases a with
    | menter =>
        simp only [pstep] at hstep
        split at hstep
        case _ =>
          split at hstep
          · split at hstep <;>
            · cases hstep
              exact hdead
          · exact Option.noConfusion hstep
        case _ => exact Option.noConfusion hstep
    | mbegin =>
        simp only [pstep] at hstep
        split at hstep
        case _ heqp heql =>
          rw [hdead] at heql
          exact LifeState.noConfusion heql
        case _ => exact Option.noConfusion hstep
    | mfinish =>
        simp only [pstep] at hstep
        split at hstep
        case _ heqp =>
          have := hmctor heqp
          rw [hdead] at this
          exact LifeState.noConfusion this
        case _ => exact Option.noConfusion hstep
    | mtake =>
        simp only [pstep] at hstep
        split at hstep
        case _ heqp heql =>
          rw [hdead] at heql
          exact LifeState.noConfusion heql
        case _ => exact Option.noConfusion hstep
    | wenter =>
        simp only [pstep] at hstep
        split at hstep
        case _ =>
          split at hstep <;>
          · cases hstep
            exact hdead
        case _ => exact Option.noConfusion hstep
    | wbegin =>
        simp only [pstep] at hstep
        split at hstep
        case _ heqp heql =>
          rw [hdead] at heql
          exact LifeState.noConfusion heql
        case _ => exact Option.noConfusion hstep
    | wfinish =>
        simp only [pstep] at hstep
        split at hstep
        case _ heqp =>
          have := hwctor heqp
          rw [hdead] at this
          exact LifeState.noConfusion this
        case _ => exact Option.noConfusion hstep
    | wtake =>
        simp only [pstep] at hstep
        split at hstep
        case _ heqp heql =>
          rw [hdead] at heql
          exact LifeState.noConfusion heql
        case _ heqp heql =>
          cases hstep
          exact hdead
        case _ => exact Option.noConfusion hstep
    | shutdown =>
        simp only [pstep] at hstep
        split at hstep
        case _ heqp heqs =>
          exact absurd (hdsh hdead) (by simp [heqs])
        case _ => exact Option.noConfusion hstep

/-- The configuration after the first step of the whole-program model. -/
def c5WitnessConfig : PConfig :=
  { pinit with guardReady := true, mutexLocked := true
               mainPhase := some .atInst }

/-- Witness for C5 at the first step of the program. -/
theorem C5_lifecycle_state_machine_witness :
    PReach pinit ∧ pstep pinit .menter = some c5WitnessConfig ∧
    (pinit.life = .uninitialized ∧
    (c5WitnessConfig.life = pinit.life ∨
      (pinit.life = .uninitialized ∧ c5WitnessConfig.life = .constructing) ∨
      (pinit.life = .constructing ∧ c5WitnessConfig.life = .ready) ∨
      (pinit.life = .ready ∧ c5WitnessConfig.life = .destroyed)) ∧
    (pinit.life = .destroyed → c5WitnessConfig.life = .destroyed) ∧
    c5WitnessConfig.ctorCount ≤ 1) :=
  ⟨⟨[], rfl⟩, by decide,
   C5_lifecycle_state_machine pinit .menter c5WitnessConfig ⟨[], rfl⟩
     (by decide)⟩

/-- C6 counterexample: it is not true that the destructor runs only after
all references have gone out of use — in the reachable configuration
`badConfig` the detached worker's `GetInstance` call returns *after*
`~TestClass2` has run (a `ret` event after the `dtorRun` event), because
`main`'s return triggers static destruction without waiting for the
detached worker. -/
theorem C6_counterexample :
    PReach badConfig ∧ retAfterDtor badConfig.events = true :=
  ⟨⟨badActs, by decide⟩, by decide⟩

/-- C6 (amended): over the whole life of the program the destructor runs
at most once, and exactly once at process shutdown — destruction happens
only through the static-destruction step at `main`'s return, only for a
constructed instance (so construction precedes it), and at most one live
instance ever exists (the construction count never exceeds one) — but
destruction does not wait for the detached worker thread, which may still
call `GetInstance` afterwards. -/
theorem C6_destruction_exactly_once (c : PConfig) (hreach : PReach c) :
    c.dtorCount ≤ 1 ∧
    c.ctorCount ≤ 1 ∧
    (c.life = .destroyed ↔ c.dtorCount = 1) ∧
    (c.life = .destroyed → c.shutdownDone = true ∧ c.ctorCount = 1) ∧
    (c.shutdownDone = true → c.dtorCount = 1) := by
  obtain ⟨hcnt, huninit, _, _, _, hdes, hdcnt, hdsh, hsh, hmn⟩ :=
    preach_inv hreach
  refine ⟨hdcnt, hcnt, hdes, ?_, ?_⟩
  · intro h
    refine ⟨hdsh h, ?_⟩
    have hne : c.ctorCount ≠ 0 := by
      intro h0
      have := huninit.mpr h0
      rw [h] at this
      exact LifeState.noConfusion this
    omega
  · intro h
    exact hdes.mp (hsh h).2

/-- Witness for C6 (amended) at the reachable configuration `badConfig`. -/
theorem C6_destruction_exactly_once_witness :
    PReach badConfig ∧
    (badConfig.dtorCount ≤ 1 ∧
    badConfig.ctorCount ≤ 1 ∧
    (badConfig.life = .destroyed ↔ badConfig.dtorCount = 1) ∧
    (badConfig.life = .destroyed →
      badConfig.shutdownDone = true ∧ badConfig.ctorCount = 1) ∧
    (badConfig.shutdownDone = true → badConfig.dtorCount = 1)) :=
  ⟨⟨badActs, by decide⟩,
   C6_destruction_exactly_once badConfig ⟨badActs, by decide⟩⟩

/-- C7: evaluating the code at the failing input.  The source's
`lock_guard` is itself `static` (line 195), so the claim that the mutex is
never held beyond the initialization step is false: after the very first
completed `GetInstance` call the mutex is still locked, and it is still
locked after the five sequential calls the main thread performs — the
lock is held for the entire remaining life of the program (it is only
released by static destruction at shutdown, `pstep`'s `shutdown` step). -/
theorem C7_mutex_held_beyond_initialization :
    ((GetInstance true SState.start).2).mutexLocked = true ∧
    ((runCalls 5 SState.start).2).mutexLocked = true := by decide

/-- C8: the serialization round-trip is lossless — `mymap1` holds exactly
the five entries inserted at lines 89-93 (in ascending key order, the
iteration order of `std::map`), and serializing it to the binary archive
and deserializing into the empty `mymap2` yields a map equal to `mymap1`:
same keys, same values, same order. -/
theorem C8_serialization_roundtrip :
    mymap1 = [(1, "Hello, "), (2, "this "), (3, "is "), (4, "a "),
              (5, "message.")] ∧
    deserializeMap (serializeMap mymap1) = some mymap1 :=
  ⟨rfl, rfl⟩

/-- C9: each of the three `TestClass1` objects allocated in
`shared_pointer_test1` (ids 0, 1, 2 for values 1, 2, 3) is destroyed
exactly once — when `shared_pointer_test1` returns, the objects of
`bptr_tc11` (id 0) and `bptr_tc12` (id 1) are destroyed (in reverse
declaration order) while the returned object (id 2) is still alive with
one reference; when `shared_pointer_test`'s copy `bptr` goes out of scope
at its return, id 2 is destroyed too, and no live object remains: the
destruction log `[1, 0, 2]` names every object exactly once. -/
theorem C9_shared_ptr_destruction :
    (shared_pointer_test1 SPHeap.start).2.dtorLog = [1, 0] ∧
    (shared_pointer_test1 SPHeap.start).2.live = [(2, 3, 1)] ∧
    (shared_pointer_test1 SPHeap.start).1 = 2 ∧
    (shared_pointer_test SPHeap.start).dtorLog = [1, 0, 2] ∧
    (shared_pointer_test SPHeap.start).live = [] := by
  decide

/-- C10: `rand_from_uniform_dstrb_test` is deterministic — the seed it
gives the Mersenne Twister is the fixed constant 12411 whatever the state
of the machine, so two runs of the function under arbitrary (possibly
different) external environments produce the identical sequence of
sampled values, for every deterministic distribution transform of the raw
generator stream. -/
theorem C10_deterministic_output {α : Type}
    (normalDistr : List Nat → List α) (fuel : Nat) (env1 env2 : OsEnv) :
    randTestSeed env1 = 12411 ∧
    rand_from_uniform_dstrb_test normalDistr env1 fuel =
      rand_from_uniform_dstrb_test normalDistr env2 fuel :=
  ⟨rfl, rfl⟩

end BoostExamples
